import Mathlib

/-!
Verification of the pyjudo dependency-injection container.

The repository ships type stubs (`*.pyi`) for its classes — the exception
hierarchy, `ServiceEntryCollection`, `ServiceCache`, `ScopeStack`,
`FactoryProxy`, `ServiceContainer` — together with documentation notebooks.
The bodies of the resolver, the scope and the container are not part of the
sources available here, so the operational behaviour below is modelled from
the specification (each such definition says so in its doc comment), while
the exception class hierarchy is embedded directly from the stub
`src/pyjudo/factory.pyi` (exceptions section).

Conventions of the embedding:
* service identifiers and type tokens are `Nat`;
* Python object identity is modelled by an instance counter: every
  construction allocates a fresh instance id, and "the identical instance"
  means "the same instance id";
* raising is modelled with `Except`; recursion is fuelled, with a distinct
  `outOfFuel` signal that no theorem ever treats as container behaviour.
-/

set_option autoImplicit false

namespace Pyjudo

/-- A runtime value: a caller-supplied literal (override / default), a
constructed service instance identified by its instance id, or a factory
proxy bound to a type token (mirrors `FactoryProxy` from `factory.pyi`). -/
inductive Value where
  | lit (n : Nat)
  | obj (iid : Nat)
  | factoryProxy (t : Nat)
deriving Repr, DecidableEq

/-- Service lifetimes, mirroring `ServiceLife` ({TRANSIENT, SCOPED, SINGLETON}). -/
inductive ServiceLife where
  | transient
  | scoped
  | singleton
deriving Repr, DecidableEq

/-- The declared type of a constructor parameter: either a direct dependency
on a type token, or a deferred `Factory[...]` dependency on a type token. -/
inductive DeclType where
  | iface (t : Nat)
  | factoryOf (t : Nat)
deriving Repr, DecidableEq

/-- One declared constructor parameter: its name, its declared type, and its
declared default value, if any. -/
structure Param where
  pname : String
  decl : DeclType
  dflt : Option Value
deriving Repr, DecidableEq

/-- Modelled from the spec: a registration record (`ServiceEntry` in
`pyjudo.core`; its body is not among the sources). `params` is the
constructor signature in declaration order; `producedType` is the runtime
type of the value the constructor/factory produces; `conforms` records
whether that runtime type conforms to the interface the entry is registered
under; `disposable` whether produced instances expose a disposal method,
and `disposeRaises` whether that disposal method raises when invoked. -/
structure ServiceEntry where
  params : List Param
  lifetime : ServiceLife
  producedType : Nat
  conforms : Bool
  disposable : Bool
  disposeRaises : Bool
deriving Repr, DecidableEq

/-- The errors of the container, one constructor per exception kind of the
taxonomy (plus the fuel-exhaustion artefact of the embedding). -/
inductive ServiceError where
  | circularDependency (id : Nat) (trail : List Nat)
  | notRegistered (id : Nat)
  | unresolvableDependency (pname : String) (owner : Nat)
  | typeMismatch (produced : Nat) (expected : Nat)
  | noActiveScope (id : Nat)
  | disposalFailure (failed : List Nat)
  | disposedUse (iid : Nat)
  | outOfFuel
deriving Repr, DecidableEq

/-- What the heap records about a constructed instance: its runtime type and
the argument assignment (name → value, in declaration order) it was
constructed with. -/
structure InstInfo where
  rty : Nat
  args : List (String × Value)
deriving Repr, DecidableEq

/-- Modelled from the spec: a scope (`ServiceScope`; its body is not among
the sources): its own service cache, and the disposable instances it has
created, in creation order, each paired with whether its disposal raises. -/
structure Scope where
  cache : List (Nat × Value)
  disposables : List (Nat × Bool)
deriving Repr, DecidableEq

/-- Modelled from the spec: the whole container state — registry, singleton
cache, scope stack (head = current scope), instance-id counter, heap of
constructed instances and the chronological log of disposal calls. -/
structure ContainerState where
  registry : List (Nat × ServiceEntry)
  singletonCache : List (Nat × Value)
  scopeStack : List Scope
  nextId : Nat
  heap : List (Nat × InstInfo)
  disposeLog : List Nat
deriving Repr, DecidableEq

/-- Association lookup with `Nat` keys (first match wins). -/
def alookup {α : Type} : List (Nat × α) → Nat → Option α
  | [], _ => none
  | (k, v) :: rest, key => if key = k then some v else alookup rest key

/-- Association lookup with `String` keys (first match wins); used for the
keyword-only overrides mapping. -/
def slookup {α : Type} : List (String × α) → String → Option α
  | [], _ => none
  | (k, v) :: rest, key => if key = k then some v else slookup rest key

@[simp] theorem alookup_nil {α : Type} (key : Nat) : alookup ([] : List (Nat × α)) key = none := rfl

@[simp] theorem alookup_cons {α : Type} (k : Nat) (v : α) (rest : List (Nat × α)) (key : Nat) :
    alookup ((k, v) :: rest) key = if key = k then some v else alookup rest key := rfl

@[simp] theorem slookup_nil {α : Type} (key : String) : slookup ([] : List (String × α)) key = none := rfl

@[simp] theorem slookup_cons {α : Type} (k : String) (v : α) (rest : List (String × α)) (key : String) :
    slookup ((k, v) :: rest) key = if key = k then some v else slookup rest key := rfl

/-- Modelled from the spec (§4.5 steps 5–6, the resolver's body is not among
the sources): invoke the constructor, producing a fresh instance, then
type-check the produced value against the requested identifier's contract;
a non-conforming value raises `ServiceTypeError` and is neither returned
nor recorded. -/
def allocate (st : ContainerState) (id : Nat) (entry : ServiceEntry)
    (args : List (String × Value)) : Except ServiceError (Nat × ContainerState) :=
  if entry.conforms then
    .ok (st.nextId, { st with
      nextId := st.nextId + 1,
      heap := (st.nextId, ⟨entry.producedType, args⟩) :: st.heap })
  else .error (.typeMismatch entry.producedType id)

/-- Modelled from the spec (§4.5 step 4, the resolver's body is not among
the sources): assign each declared parameter in declaration order. The
precedence per parameter is: the override value verbatim if the name is in
`ov`; else a factory proxy if the parameter is declared `Factory[t]`; else a
recursive resolution (via `step`) if the declared type token is registered;
else the declared default; else `UnresolvableDependencyError` naming the
parameter and `owner`, the entry being constructed. -/
def resolveOneParam (step : ContainerState → Nat → Except ServiceError (Value × ContainerState))
    (ov : List (String × Value)) (owner : Nat) (st : ContainerState) (p : Param) :
    Except ServiceError (Value × ContainerState) :=
  match slookup ov p.pname with
  | some w => .ok (w, st)
  | none =>
    match p.decl with
    | .factoryOf t => .ok (.factoryProxy t, st)
    | .iface t =>
      if (alookup st.registry t).isSome then
        step st t
      else
        match p.dflt with
        | some d => .ok (d, st)
        | none => .error (.unresolvableDependency p.pname owner)

/-- Modelled from the spec (§4.5 step 4): fold `resolveOneParam` over the
declared parameters in declaration order, threading the container state and
collecting the named argument assignment. -/
def resolveParamsWith (step : ContainerState → Nat → Except ServiceError (Value × ContainerState))
    (ov : List (String × Value)) (owner : Nat) :
    ContainerState → List Param → Except ServiceError (List (String × Value) × ContainerState)
  | st, [] => .ok ([], st)
  | st, p :: rest =>
    match resolveOneParam step ov owner st p with
    | .error e => .error e
    | .ok (v, st1) =>
      match resolveParamsWith step ov owner st1 rest with
      | .error e => .error e
      | .ok (vs, st2) => .ok ((p.pname, v) :: vs, st2)

/-- Modelled from the spec (§4.5 steps 4–6): resolve the parameters, then
invoke the constructor and type-check its product. -/
def constructService (step : ContainerState → Nat → Except ServiceError (Value × ContainerState))
    (ov : List (String × Value)) (st : ContainerState) (id : Nat) (entry : ServiceEntry) :
    Except ServiceError (Nat × ContainerState) :=
  match resolveParamsWith step ov id st entry.params with
  | .error e => .error e
  | .ok (args, st1) => allocate st1 id entry args

/-- Modelled from the spec (§4.5, the resolver's body is not among the
sources): the recursive resolution algorithm. In order: cycle check against
the trail (before any cache lookup), registry lookup, lifetime policy
(singleton cache / current-scope cache / no cache), parameter assembly with
the trail extended by `id` and empty overrides for dependencies, fresh
construction with type check, disposal registration (scoped disposables
only) and caching. `fuel` only bounds recursion depth. -/
def resolve : Nat → ContainerState → Nat → List (String × Value) → List Nat →
    Except ServiceError (Value × ContainerState)
  | 0, _, _, _, _ => .error .outOfFuel
  | fuel + 1, st, id, ov, trail =>
    if id ∈ trail then .error (.circularDependency id trail)
    else
      match alookup st.registry id with
      | none => .error (.notRegistered id)
      | some entry =>
        match entry.lifetime with
        | .singleton =>
          match alookup st.singletonCache id with
          | some v => .ok (v, st)
          | none =>
            match constructService (fun s t => resolve fuel s t [] (id :: trail)) ov st id entry with
            | .error e => .error e
            | .ok (iid, st2) =>
              .ok (.obj iid, { st2 with singletonCache := (id, Value.obj iid) :: st2.singletonCache })
        | .scoped =>
          match st.scopeStack with
          | [] => .error (.noActiveScope id)
          | sc :: _ =>
            match alookup sc.cache id with
            | some v => .ok (v, st)
            | none =>
              match constructService (fun s t => resolve fuel s t [] (id :: trail)) ov st id entry with
              | .error e => .error e
              | .ok (iid, st2) =>
                match st2.scopeStack with
                | [] => .error (.noActiveScope id)
                | sc1 :: rest1 =>
                  .ok (.obj iid, { st2 with scopeStack :=
                    { cache := (id, Value.obj iid) :: sc1.cache,
                      disposables :=
                        if entry.disposable then sc1.disposables ++ [(iid, entry.disposeRaises)]
                        else sc1.disposables } :: rest1 })
        | .transient =>
          match constructService (fun s t => resolve fuel s t [] (id :: trail)) ov st id entry with
          | .error e => .error e
          | .ok (iid, st2) => .ok (.obj iid, st2)

/-- `ServiceContainer.get(interface, **overrides)`: resolve with an empty
trail (modelled from the spec §4.6; the container's body is not among
the sources). -/
def containerGet (fuel : Nat) (st : ContainerState) (id : Nat)
    (ov : List (String × Value)) : Except ServiceError (Value × ContainerState) :=
  resolve fuel st id ov []

/-- `ServiceContainer.get_factory(interface)`: a factory proxy bound to the
identifier (mirrors `FactoryProxy.__init__` from `factory.pyi`). -/
def getFactory (id : Nat) : Value := .factoryProxy id

/-- `FactoryProxy.__call__(**overrides)`: re-invoke resolution for the bound
identifier with the given overrides and a fresh (empty) trail (modelled from
the spec; `FactoryProxy.__call__`'s body is not among the sources). -/
def callFactoryProxy (fuel : Nat) (st : ContainerState) (t : Nat)
    (ov : List (String × Value)) : Except ServiceError (Value × ContainerState) :=
  resolve fuel st t ov []

/-- Remove every binding for `id` from an association list. -/
def removeKey {α : Type} (l : List (Nat × α)) (id : Nat) : List (Nat × α) :=
  l.filter (fun kv => kv.1 ≠ id)

/-- `ServiceEntryCollection.set(interface, entry)` (stub in
`service_entry_collection.pyi`; modelled from the spec for its behaviour:
store/overwrite, no error, last write wins). -/
def setEntry (reg : List (Nat × ServiceEntry)) (id : Nat) (entry : ServiceEntry) :
    List (Nat × ServiceEntry) :=
  (id, entry) :: removeKey reg id

/-- `ServiceContainer.register(interface, constructor, lifetime)`: store the
registration record in the registry (modelled from the spec §4.6). -/
def registerService (st : ContainerState) (id : Nat) (entry : ServiceEntry) : ContainerState :=
  { st with registry := setEntry st.registry id entry }

/-- Scope entry (`__enter__`): push a fresh scope — empty cache, empty
disposables — onto the scope stack (modelled from the spec §4.4). -/
def enterScope (st : ContainerState) : ContainerState :=
  { st with scopeStack := ⟨[], []⟩ :: st.scopeStack }

/-- Modelled from the spec (§4.4 Exit; the scope's body is not among the
sources): walk a list of tracked disposables, invoking each disposal in
order; a disposal that raises is caught and collected, and the walk
continues. Returns (ids disposed in call order, ids whose disposal raised,
in call order). -/
def disposeAll : List (Nat × Bool) → List Nat × List Nat
  | [] => ([], [])
  | (iid, raises) :: rest =>
    let res := disposeAll rest
    (iid :: res.1, if raises then iid :: res.2 else res.2)

/-- Modelled from the spec (§4.4 Exit; the scope's body is not among the
sources): scope exit. Dispose every tracked disposable of the current scope
in strict reverse creation order (best effort: failures are collected, not
propagated mid-walk), pop the scope, and only then report an aggregate
`DisposalError` if any disposal raised. `none` models the fatal precondition
violation of exiting with an empty scope stack. -/
def scopeExit (st : ContainerState) : Option (ContainerState × Option ServiceError) :=
  match st.scopeStack with
  | [] => none
  | sc :: rest =>
    let res := disposeAll sc.disposables.reverse
    some ({ st with scopeStack := rest, disposeLog := st.disposeLog ++ res.1 },
          if res.2.isEmpty then none else some (.disposalFailure res.2))

/-!
The Python exception class hierarchy, embedded directly from the exceptions
section of the stub `src/pyjudo/factory.pyi`.
-/

/-- The exception classes declared by the stub, plus the builtin
`Exception` they ultimately derive from. -/
inductive PyClass where
  | exceptionBase
  | serviceException
  | serviceCircularDependencyError
  | serviceResolutionError
  | serviceRegistrationError
  | serviceTypeError
  | serviceDisposedError
  | serviceScopeError
deriving Repr, DecidableEq

/-- The declared direct superclass of each class, exactly as in the stub:
`ServiceException(Exception)` and every specific error `(ServiceException)`. -/
def pySuper : PyClass → Option PyClass
  | .exceptionBase => none
  | .serviceException => some .exceptionBase
  | .serviceCircularDependencyError => some .serviceException
  | .serviceResolutionError => some .serviceException
  | .serviceRegistrationError => some .serviceException
  | .serviceTypeError => some .serviceException
  | .serviceDisposedError => some .serviceException
  | .serviceScopeError => some .serviceException

/-- The superclass chain of a class (reflexive), cut off by fuel — the
hierarchy has depth at most 3. -/
def pyAncestors : Nat → PyClass → List PyClass
  | 0, c => [c]
  | n + 1, c =>
    c :: (match pySuper c with
          | none => []
          | some p => pyAncestors n p)

/-- `issubclass(c, d)` over the stub's declared hierarchy. -/
def pyIsSubclass (c d : PyClass) : Bool :=
  decide (d ∈ pyAncestors 4 c)

/-- The Python exception class each modelled container error is raised as
(the fuel artefact is attributed to the common base). -/
def errorClass : ServiceError → PyClass
  | .circularDependency .. => .serviceCircularDependencyError
  | .notRegistered .. => .serviceRegistrationError
  | .unresolvableDependency .. => .serviceResolutionError
  | .typeMismatch .. => .serviceTypeError
  | .noActiveScope .. => .serviceScopeError
  | .disposalFailure .. => .serviceException
  | .disposedUse .. => .serviceDisposedError
  | .outOfFuel => .serviceException

/-!
Preservation infrastructure: facts every successful resolution maintains —
the registry is read-only, the instance counter only grows, and the scope
stack keeps its shape (resolution may rewrite the current scope's contents
but never pushes, pops, or touches outer scopes).
-/

/-- State relations maintained by every successful resolution step. -/
def Preserves (st st' : ContainerState) : Prop :=
  st'.registry = st.registry ∧
  st.nextId ≤ st'.nextId ∧
  st'.scopeStack.length = st.scopeStack.length ∧
  st'.scopeStack.drop 1 = st.scopeStack.drop 1

theorem preserves_refl (st : ContainerState) : Preserves st st :=
  ⟨rfl, Nat.le_refl _, rfl, rfl⟩

theorem preserves_trans {a b c : ContainerState} (h1 : Preserves a b) (h2 : Preserves b c) :
    Preserves a c :=
  ⟨h2.1.trans h1.1, h1.2.1.trans h2.2.1, h2.2.2.1.trans h1.2.2.1, h2.2.2.2.trans h1.2.2.2⟩

theorem allocate_ok {st : ContainerState} {id : Nat} {entry : ServiceEntry}
    {args : List (String × Value)} {iid : Nat} {st2 : ContainerState}
    (h : allocate st id entry args = .ok (iid, st2)) :
    entry.conforms = true ∧ iid = st.nextId ∧
      st2 = { st with nextId := st.nextId + 1,
                      heap := (st.nextId, ⟨entry.producedType, args⟩) :: st.heap } := by
  unfold allocate at h
  split at h
  · simp only [Except.ok.injEq, Prod.mk.injEq] at h
    exact ⟨by assumption, h.1.symm, h.2.symm⟩
  · exact absurd h (by simp)

theorem resolveOneParam_preserves
    {step : ContainerState → Nat → Except ServiceError (Value × ContainerState)}
    (hstep : ∀ s t v s', step s t = .ok (v, s') → Preserves s s')
    {ov : List (String × Value)} {owner : Nat} {st : ContainerState} {p : Param}
    {v : Value} {st' : ContainerState}
    (h : resolveOneParam step ov owner st p = .ok (v, st')) : Preserves st st' := by
  unfold resolveOneParam at h
  split at h
  · simp only [Except.ok.injEq, Prod.mk.injEq] at h
    rw [← h.2]; exact preserves_refl st
  · split at h
    · simp only [Except.ok.injEq, Prod.mk.injEq] at h
      rw [← h.2]; exact preserves_refl st
    · split at h
      · exact hstep _ _ _ _ h
      · split at h
        · simp only [Except.ok.injEq, Prod.mk.injEq] at h
          rw [← h.2]; exact preserves_refl st
        · exact absurd h (by simp)

theorem resolveParamsWith_preserves
    {step : ContainerState → Nat → Except ServiceError (Value × ContainerState)}
    (hstep : ∀ s t v s', step s t = .ok (v, s') → Preserves s s')
    {ov : List (String × Value)} {owner : Nat} :
    ∀ {ps : List Param} {st : ContainerState} {vs : List (String × Value)} {st' : ContainerState},
      resolveParamsWith step ov owner st ps = .ok (vs, st') → Preserves st st' := by
  intro ps
  induction ps with
  | nil =>
    intro st vs st' h
    unfold resolveParamsWith at h
    simp only [Except.ok.injEq, Prod.mk.injEq] at h
    rw [← h.2]; exact preserves_refl st
  | cons p rest ih =>
    intro st vs st' h
    unfold resolveParamsWith at h
    cases h1 : resolveOneParam step ov owner st p with
    | error e => rw [h1] at h; exact Except.noConfusion h
    | ok r =>
      obtain ⟨v, st1⟩ := r
      rw [h1] at h
      simp only at h
      cases h2 : resolveParamsWith step ov owner st1 rest with
      | error e => rw [h2] at h; exact Except.noConfusion h
      | ok r2 =>
        obtain ⟨vs2, st2⟩ := r2
        rw [h2] at h
        simp only [Except.ok.injEq, Prod.mk.injEq] at h
        rw [← h.2]
        exact preserves_trans (resolveOneParam_preserves hstep h1) (ih h2)

theorem constructService_ok
    {step : ContainerState → Nat → Except ServiceError (Value × ContainerState)}
    (hstep : ∀ s t v s', step s t = .ok (v, s') → Preserves s s')
    {ov : List (String × Value)} {st : ContainerState} {id : Nat} {entry : ServiceEntry}
    {iid : Nat} {st2 : ContainerState}
    (h : constructService step ov st id entry = .ok (iid, st2)) :
    Preserves st st2 ∧ st.nextId ≤ iid ∧ iid < st2.nextId := by
  unfold constructService at h
  cases h1 : resolveParamsWith step ov id st entry.params with
  | error e => rw [h1] at h; exact absurd h (by simp)
  | ok r =>
    obtain ⟨args, st1⟩ := r
    rw [h1] at h
    have hp := resolveParamsWith_preserves hstep h1
    obtain ⟨-, hiid, hst2⟩ := allocate_ok h
    constructor
    · refine preserves_trans hp ?_
      rw [hst2]
      exact ⟨rfl, Nat.le_succ _, rfl, rfl⟩
    · constructor
      · rw [hiid]; exact hp.2.1
      · rw [hst2, hiid]; exact Nat.lt_succ_self _

theorem resolve_preserves : ∀ (fuel : Nat) {st : ContainerState} {id : Nat}
    {ov : List (String × Value)} {trail : List Nat} {v : Value} {st' : ContainerState},
    resolve fuel st id ov trail = .ok (v, st') → Preserves st st' := by
  intro fuel
  induction fuel with
  | zero => intro st id ov trail v st' h; exact Except.noConfusion h
  | succ fuel ih =>
    intro st id ov trail v st' h
    rw [resolve] at h
    by_cases hmem : id ∈ trail
    · rw [if_pos hmem] at h; exact Except.noConfusion h
    · rw [if_neg hmem] at h
      cases hreg : alookup st.registry id with
      | none => rw [hreg] at h; exact Except.noConfusion h
      | some entry =>
        rw [hreg] at h
        simp only at h
        cases hlife : entry.lifetime
        -- transient
        · rw [hlife] at h
          simp only at h
          cases hcs : constructService (fun s t => resolve fuel s t [] (id :: trail)) ov st id entry with
          | error e => rw [hcs] at h; exact Except.noConfusion h
          | ok r =>
            obtain ⟨iid, st2⟩ := r
            rw [hcs] at h
            simp only [Except.ok.injEq, Prod.mk.injEq] at h
            rw [← h.2]
            exact (constructService_ok (fun s t v s' hh => ih hh) hcs).1
        -- scoped
        · rw [hlife] at h
          simp only at h
          cases hss : st.scopeStack with
          | nil => rw [hss] at h; exact Except.noConfusion h
          | cons sc rest =>
            rw [hss] at h
            simp only at h
            cases hc : alookup sc.cache id with
            | some v0 =>
              rw [hc] at h
              simp only [Except.ok.injEq, Prod.mk.injEq] at h
              rw [← h.2]; exact preserves_refl st
            | none =>
              rw [hc] at h
              simp only at h
              cases hcs : constructService (fun s t => resolve fuel s t [] (id :: trail)) ov st id entry with
              | error e => rw [hcs] at h; exact Except.noConfusion h
              | ok r =>
                obtain ⟨iid, st2⟩ := r
                rw [hcs] at h
                simp only at h
                have hp := (constructService_ok (fun s t v s' hh => ih hh) hcs).1
                cases hss2 : st2.scopeStack with
                | nil => rw [hss2] at h; exact Except.noConfusion h
                | cons sc1 rest1 =>
                  rw [hss2] at h
                  simp only [Except.ok.injEq, Prod.mk.injEq] at h
                  rw [← h.2]
                  refine preserves_trans hp ⟨rfl, Nat.le_refl _, ?_, ?_⟩
                  · simp [hss2]
                  · simp [hss2]
        -- singleton
        · rw [hlife] at h
          simp only at h
          cases hc : alookup st.singletonCache id with
          | some v0 =>
            rw [hc] at h
            simp only [Except.ok.injEq, Prod.mk.injEq] at h
            rw [← h.2]; exact preserves_refl st
          | none =>
            rw [hc] at h
            simp only at h
            cases hcs : constructService (fun s t => resolve fuel s t [] (id :: trail)) ov st id entry with
            | error e => rw [hcs] at h; exact Except.noConfusion h
            | ok r =>
              obtain ⟨iid, st2⟩ := r
              rw [hcs] at h
              simp only [Except.ok.injEq, Prod.mk.injEq] at h
              have hp := (constructService_ok (fun s t v s' hh => ih hh) hcs).1
              rw [← h.2]
              exact preserves_trans hp ⟨rfl, Nat.le_refl _, rfl, rfl⟩

/-!
Freshness invariant: every instance id stored in any cache is strictly below
the instance counter, so a freshly constructed instance can never collide
with a cached one.
-/

/-- `v` only refers to instance ids strictly below `n`. -/
def objBound : Value → Nat → Prop
  | .obj i, n => i < n
  | _, _ => True

theorem objBound_mono {v : Value} {n m : Nat} (h : objBound v n) (hnm : n ≤ m) :
    objBound v m := by
  cases v with
  | obj i => exact Nat.lt_of_lt_of_le h hnm
  | lit k => trivial
  | factoryProxy t => trivial

/-- Well-formedness of a container state: every cached value (singleton
cache and every scope's cache) is bounded by the instance counter. -/
def StateWF (st : ContainerState) : Prop :=
  (∀ id v, alookup st.singletonCache id = some v → objBound v st.nextId) ∧
  (∀ sc ∈ st.scopeStack, ∀ id v, alookup sc.cache id = some v → objBound v st.nextId)

theorem resolveOneParam_wf
    {step : ContainerState → Nat → Except ServiceError (Value × ContainerState)}
    (hstep : ∀ s t v s', StateWF s → step s t = .ok (v, s') → StateWF s')
    {ov : List (String × Value)} {owner : Nat} {st : ContainerState} {p : Param}
    {v : Value} {st' : ContainerState} (hwf : StateWF st)
    (h : resolveOneParam step ov owner st p = .ok (v, st')) : StateWF st' := by
  unfold resolveOneParam at h
  split at h
  · simp only [Except.ok.injEq, Prod.mk.injEq] at h
    rw [← h.2]; exact hwf
  · split at h
    · simp only [Except.ok.injEq, Prod.mk.injEq] at h
      rw [← h.2]; exact hwf
    · split at h
      · exact hstep _ _ _ _ hwf h
      · split at h
        · simp only [Except.ok.injEq, Prod.mk.injEq] at h
          rw [← h.2]; exact hwf
        · exact absurd h (by simp)

theorem resolveParamsWith_wf
    {step : ContainerState → Nat → Except ServiceError (Value × ContainerState)}
    (hstep : ∀ s t v s', StateWF s → step s t = .ok (v, s') → StateWF s')
    {ov : List (String × Value)} {owner : Nat} :
    ∀ {ps : List Param} {st : ContainerState} {vs : List (String × Value)} {st' : ContainerState},
      StateWF st → resolveParamsWith step ov owner st ps = .ok (vs, st') → StateWF st' := by
  intro ps
  induction ps with
  | nil =>
    intro st vs st' hwf h
    unfold resolveParamsWith at h
    simp only [Except.ok.injEq, Prod.mk.injEq] at h
    rw [← h.2]; exact hwf
  | cons p rest ih =>
    intro st vs st' hwf h
    unfold resolveParamsWith at h
    cases h1 : resolveOneParam step ov owner st p with
    | error e => rw [h1] at h; exact Except.noConfusion h
    | ok r =>
      obtain ⟨v, st1⟩ := r
      rw [h1] at h
      simp only at h
      cases h2 : resolveParamsWith step ov owner st1 rest with
      | error e => rw [h2] at h; exact Except.noConfusion h
      | ok r2 =>
        obtain ⟨vs2, st2⟩ := r2
        rw [h2] at h
        simp only [Except.ok.injEq, Prod.mk.injEq] at h
        rw [← h.2]
        exact ih (resolveOneParam_wf hstep hwf h1) h2

theorem constructService_wf
    {step : ContainerState → Nat → Except ServiceError (Value × ContainerState)}
    (hstep : ∀ s t v s', StateWF s → step s t = .ok (v, s') → StateWF s')
    {ov : List (String × Value)} {st : ContainerState} {id : Nat} {entry : ServiceEntry}
    {iid : Nat} {st2 : ContainerState} (hwf : StateWF st)
    (h : constructService step ov st id entry = .ok (iid, st2)) : StateWF st2 := by
  unfold constructService at h
  cases h1 : resolveParamsWith step ov id st entry.params with
  | error e => rw [h1] at h; exact Except.noConfusion h
  | ok r =>
    obtain ⟨args, st1⟩ := r
    rw [h1] at h
    have hwf1 := resolveParamsWith_wf hstep hwf h1
    obtain ⟨-, -, hst2⟩ := allocate_ok h
    rw [hst2]
    refine ⟨?_, ?_⟩
    · intro id0 v0 h0
      exact objBound_mono (hwf1.1 id0 v0 h0) (Nat.le_succ _)
    · intro sc hsc id0 v0 h0
      exact objBound_mono (hwf1.2 sc hsc id0 v0 h0) (Nat.le_succ _)

theorem resolve_wf : ∀ (fuel : Nat) {st : ContainerState} {id : Nat}
    {ov : List (String × Value)} {trail : List Nat} {v : Value} {st' : ContainerState},
    StateWF st → resolve fuel st id ov trail = .ok (v, st') →
    StateWF st' ∧ objBound v st'.nextId := by
  intro fuel
  induction fuel with
  | zero => intro st id ov trail v st' _ h; exact Except.noConfusion h
  | succ fuel ih =>
    intro st id ov trail v st' hwf h
    have hstepwf : ∀ s t v s', StateWF s →
        (fun s t => resolve fuel s t [] (id :: trail)) s t = .ok (v, s') → StateWF s' :=
      fun s t v s' hw hh => (ih hw hh).1
    have hsteppres : ∀ s t v s',
        (fun s t => resolve fuel s t [] (id :: trail)) s t = .ok (v, s') → Preserves s s' :=
      fun s t v s' hh => resolve_preserves fuel hh
    rw [resolve] at h
    by_cases hmem : id ∈ trail
    · rw [if_pos hmem] at h; exact Except.noConfusion h
    · rw [if_neg hmem] at h
      cases hreg : alookup st.registry id with
      | none => rw [hreg] at h; exact Except.noConfusion h
      | some entry =>
        rw [hreg] at h
        simp only at h
        cases hlife : entry.lifetime
        -- transient
        · rw [hlife] at h
          simp only at h
          cases hcs : constructService (fun s t => resolve fuel s t [] (id :: trail)) ov st id entry with
          | error e => rw [hcs] at h; exact Except.noConfusion h
          | ok r =>
            obtain ⟨iid, st2⟩ := r
            rw [hcs] at h
            simp only [Except.ok.injEq, Prod.mk.injEq] at h
            obtain ⟨hv, hst⟩ := h
            rw [← hst, ← hv]
            exact ⟨constructService_wf hstepwf hwf hcs,
                   (constructService_ok hsteppres hcs).2.2⟩
        -- scoped
        · rw [hlife] at h
          simp only at h
          cases hss : st.scopeStack with
          | nil => rw [hss] at h; exact Except.noConfusion h
          | cons sc rest =>
            rw [hss] at h
            simp only at h
            cases hc : alookup sc.cache id with
            | some v0 =>
              rw [hc] at h
              simp only [Except.ok.injEq, Prod.mk.injEq] at h
              obtain ⟨hv, hst⟩ := h
              rw [← hst, ← hv]
              exact ⟨hwf, hwf.2 sc (by rw [hss]; exact List.mem_cons_self sc rest) id v0 hc⟩
            | none =>
              rw [hc] at h
              simp only at h
              cases hcs : constructService (fun s t => resolve fuel s t [] (id :: trail)) ov st id entry with
              | error e => rw [hcs] at h; exact Except.noConfusion h
              | ok r =>
                obtain ⟨iid, st2⟩ := r
                rw [hcs] at h
                simp only at h
                have hwf2 := constructService_wf hstepwf hwf hcs
                have hiid := (constructService_ok hsteppres hcs).2.2
                cases hss2 : st2.scopeStack with
                | nil => rw [hss2] at h; exact Except.noConfusion h
                | cons sc1 rest1 =>
                  rw [hss2] at h
                  simp only [Except.ok.injEq, Prod.mk.injEq] at h
                  obtain ⟨hv, hst⟩ := h
                  rw [← hst, ← hv]
                  refine ⟨⟨fun id0 v0 h0 => hwf2.1 id0 v0 h0, ?_⟩, hiid⟩
                  intro sc0 hsc0 id0 v0 h0
                  rcases List.mem_cons.mp hsc0 with hsc0 | hsc0
                  · rw [hsc0] at h0
                    rw [alookup_cons] at h0
                    by_cases hid0 : id0 = id
                    · rw [if_pos hid0] at h0
                      cases h0
                      exact hiid
                    · rw [if_neg hid0] at h0
                      exact hwf2.2 sc1 (by rw [hss2]; exact List.mem_cons_self sc1 rest1) id0 v0 h0
                  · exact hwf2.2 sc0 (by rw [hss2]; exact List.mem_cons_of_mem sc1 hsc0) id0 v0 h0
        -- singleton
        · rw [hlife] at h
          simp only at h
          cases hc : alookup st.singletonCache id with
          | some v0 =>
            rw [hc] at h
            simp only [Except.ok.injEq, Prod.mk.injEq] at h
            obtain ⟨hv, hst⟩ := h
            rw [← hst, ← hv]
            exact ⟨hwf, hwf.1 id v0 hc⟩
          | none =>
            rw [hc] at h
            simp only at h
            cases hcs : constructService (fun s t => resolve fuel s t [] (id :: trail)) ov st id entry with
            | error e => rw [hcs] at h; exact Except.noConfusion h
            | ok r =>
              obtain ⟨iid, st2⟩ := r
              rw [hcs] at h
              simp only [Except.ok.injEq, Prod.mk.injEq] at h
              obtain ⟨hv, hst⟩ := h
              have hwf2 := constructService_wf hstepwf hwf hcs
              have hiid := (constructService_ok hsteppres hcs).2.2
              rw [← hst, ← hv]
              refine ⟨⟨?_, fun sc hsc id0 v0 h0 => hwf2.2 sc hsc id0 v0 h0⟩, hiid⟩
              intro id0 v0 h0
              rw [alookup_cons] at h0
              by_cases hid0 : id0 = id
              · rw [if_pos hid0] at h0
                cases h0
                exact hiid
              · rw [if_neg hid0] at h0
                exact hwf2.1 id0 v0 h0

/-!
Cache-behaviour lemmas: what a successful resolution guarantees about the
caches, and how a cached instance short-circuits resolution.
-/

/-- A successful singleton resolution leaves the instance in the singleton
cache. -/
theorem resolve_singleton_caches {fuel : Nat} {st : ContainerState} {id : Nat}
    {ov : List (String × Value)} {trail : List Nat} {v : Value} {st' : ContainerState}
    {entry : ServiceEntry}
    (hreg : alookup st.registry id = some entry) (hlife : entry.lifetime = .singleton)
    (h : resolve fuel st id ov trail = .ok (v, st')) :
    alookup st'.singletonCache id = some v := by
  cases fuel with
  | zero => exact Except.noConfusion h
  | succ fuel =>
    rw [resolve] at h
    by_cases hmem : id ∈ trail
    · rw [if_pos hmem] at h; exact Except.noConfusion h
    · rw [if_neg hmem, hreg] at h
      simp only at h
      rw [hlife] at h
      simp only at h
      cases hc : alookup st.singletonCache id with
      | some v0 =>
        rw [hc] at h
        simp only [Except.ok.injEq, Prod.mk.injEq] at h
        rw [← h.2, ← h.1]
        exact hc
      | none =>
        rw [hc] at h
        simp only at h
        cases hcs : constructService (fun s t => resolve fuel s t [] (id :: trail)) ov st id entry with
        | error e => rw [hcs] at h; exact Except.noConfusion h
        | ok r =>
          obtain ⟨iid, st2⟩ := r
          rw [hcs] at h
          simp only [Except.ok.injEq, Prod.mk.injEq] at h
          rw [← h.2, ← h.1]
          simp

/-- A successful scoped resolution leaves the instance in the cache of the
scope on top of the stack. -/
theorem resolve_scoped_caches {fuel : Nat} {st : ContainerState} {id : Nat}
    {ov : List (String × Value)} {trail : List Nat} {v : Value} {st' : ContainerState}
    {entry : ServiceEntry}
    (hreg : alookup st.registry id = some entry) (hlife : entry.lifetime = .scoped)
    (h : resolve fuel st id ov trail = .ok (v, st')) :
    ∃ sc rest, st'.scopeStack = sc :: rest ∧ alookup sc.cache id = some v := by
  cases fuel with
  | zero => exact Except.noConfusion h
  | succ fuel =>
    rw [resolve] at h
    by_cases hmem : id ∈ trail
    · rw [if_pos hmem] at h; exact Except.noConfusion h
    · rw [if_neg hmem, hreg] at h
      simp only at h
      rw [hlife] at h
      simp only at h
      cases hss : st.scopeStack with
      | nil => rw [hss] at h; exact Except.noConfusion h
      | cons sc rest =>
        rw [hss] at h
        simp only at h
        cases hc : alookup sc.cache id with
        | some v0 =>
          rw [hc] at h
          simp only [Except.ok.injEq, Prod.mk.injEq] at h
          obtain ⟨hv, hst⟩ := h
          refine ⟨sc, rest, ?_, ?_⟩
          · rw [← hst]; exact hss
          · rw [← hv]; exact hc
        | none =>
          rw [hc] at h
          simp only at h
          cases hcs : constructService (fun s t => resolve fuel s t [] (id :: trail)) ov st id entry with
          | error e => rw [hcs] at h; exact Except.noConfusion h
          | ok r =>
            obtain ⟨iid, st2⟩ := r
            rw [hcs] at h
            simp only at h
            cases hss2 : st2.scopeStack with
            | nil => rw [hss2] at h; exact Except.noConfusion h
            | cons sc1 rest1 =>
              rw [hss2] at h
              simp only [Except.ok.injEq, Prod.mk.injEq] at h
              obtain ⟨hv, hst⟩ := h
              rw [← hst, ← hv]
              exact ⟨_, rest1, rfl, by simp⟩

/-- A cached singleton short-circuits: the cached instance is returned as is
and the state — overrides included — is not consulted further. -/
theorem resolve_singleton_hit {fuel : Nat} {st : ContainerState} {id : Nat}
    {ov : List (String × Value)} {trail : List Nat} {v : Value} {entry : ServiceEntry}
    (hreg : alookup st.registry id = some entry) (hlife : entry.lifetime = .singleton)
    (hc : alookup st.singletonCache id = some v) (hmem : id ∉ trail) :
    resolve (fuel + 1) st id ov trail = .ok (v, st) := by
  rw [resolve, if_neg hmem, hreg]
  simp only
  rw [hlife]
  simp only
  rw [hc]

/-- A scoped instance cached in the current scope short-circuits likewise. -/
theorem resolve_scoped_hit {fuel : Nat} {st : ContainerState} {id : Nat}
    {ov : List (String × Value)} {trail : List Nat} {v : Value} {entry : ServiceEntry}
    {sc : Scope} {rest : List Scope}
    (hreg : alookup st.registry id = some entry) (hlife : entry.lifetime = .scoped)
    (hss : st.scopeStack = sc :: rest) (hc : alookup sc.cache id = some v)
    (hmem : id ∉ trail) :
    resolve (fuel + 1) st id ov trail = .ok (v, st) := by
  rw [resolve, if_neg hmem, hreg]
  simp only
  rw [hlife]
  simp only
  rw [hss]
  simp only
  rw [hc]

/-- A scoped resolution that misses the current scope's cache constructs a
fresh instance: its id is at least the current instance counter. -/
theorem resolve_scoped_fresh {fuel : Nat} {st : ContainerState} {id : Nat}
    {ov : List (String × Value)} {trail : List Nat} {v : Value} {st' : ContainerState}
    {entry : ServiceEntry} {sc : Scope} {rest : List Scope}
    (hreg : alookup st.registry id = some entry) (hlife : entry.lifetime = .scoped)
    (hss : st.scopeStack = sc :: rest) (hc : alookup sc.cache id = none)
    (h : resolve fuel st id ov trail = .ok (v, st')) :
    ∃ j, v = .obj j ∧ st.nextId ≤ j := by
  cases fuel with
  | zero => exact Except.noConfusion h
  | succ fuel =>
    rw [resolve] at h
    by_cases hmem : id ∈ trail
    · rw [if_pos hmem] at h; exact Except.noConfusion h
    · rw [if_neg hmem, hreg] at h
      simp only at h
      rw [hlife] at h
      simp only at h
      rw [hss] at h
      simp only at h
      rw [hc] at h
      simp only at h
      cases hcs : constructService (fun s t => resolve fuel s t [] (id :: trail)) ov st id entry with
      | error e => rw [hcs] at h; exact Except.noConfusion h
      | ok r =>
        obtain ⟨iid, st2⟩ := r
        rw [hcs] at h
        simp only at h
        have hfresh := (constructService_ok (fun s t v s' hh => resolve_preserves fuel hh) hcs).2.1
        cases hss2 : st2.scopeStack with
        | nil => rw [hss2] at h; exact Except.noConfusion h
        | cons sc1 rest1 =>
          rw [hss2] at h
          simp only [Except.ok.injEq, Prod.mk.injEq] at h
          exact ⟨iid, h.1.symm, hfresh⟩

/-!
Disposal and registry helper lemmas.
-/

/-- Every tracked disposable is disposed, in exactly the order of the walk,
whether or not individual disposals raise. -/
theorem disposeAll_fst : ∀ (l : List (Nat × Bool)), (disposeAll l).1 = l.map Prod.fst
  | [] => rfl
  | (iid, raises) :: rest => by
    simp [disposeAll, disposeAll_fst rest]

/-- A disposable whose disposal raises ends up among the collected
failures. -/
theorem disposeAll_fails_mem {iid : Nat} :
    ∀ {l : List (Nat × Bool)}, (iid, true) ∈ l → iid ∈ (disposeAll l).2
  | [], h => absurd h (List.not_mem_nil _)
  | (j, b) :: rest, h => by
    rcases List.mem_cons.mp h with h | h
    · obtain ⟨rfl, rfl⟩ := Prod.mk.injEq .. ▸ h
      simp [disposeAll]
    · have := disposeAll_fails_mem h
      by_cases hb : b <;> simp [disposeAll, hb, this]

theorem alookup_removeKey_ne {α : Type} {l : List (Nat × α)} {id k : Nat} (hk : k ≠ id) :
    alookup (removeKey l id) k = alookup l k := by
  induction l with
  | nil => rfl
  | cons kv rest ih =>
    obtain ⟨k0, v0⟩ := kv
    by_cases h0 : k0 = id
    · subst h0
      have hkk0 : ¬(k = k0) := hk
      simp only [removeKey, List.filter_cons] at *
      simp [alookup_cons, hkk0] at *
      exact ih
    · simp only [removeKey, List.filter_cons] at *
      simp [alookup_cons, h0] at *
      by_cases hkk : k = k0
      · simp [hkk]
      · simp [hkk, ih]

/-!
Claim theorems.
-/

/-- C1: for every identifier registered with Singleton lifetime, once
`get(id)` has succeeded, a second `get(id)` returns the identical instance —
whatever overrides `ov2` are passed — and the container state is returned
untouched: the cached instance short-circuits resolution, so no dependency
is re-resolved and no override of the second call is applied. -/
theorem claim_singleton_identity
    {fuel1 fuel2 : Nat} {st st' : ContainerState} {id : Nat}
    {ov1 ov2 : List (String × Value)} {entry : ServiceEntry} {v : Value}
    (hreg : alookup st.registry id = some entry)
    (hlife : entry.lifetime = .singleton)
    (h1 : containerGet fuel1 st id ov1 = .ok (v, st')) :
    containerGet (fuel2 + 1) st' id ov2 = .ok (v, st') := by
  have hpres := resolve_preserves fuel1 h1
  have hcache := resolve_singleton_caches hreg hlife h1
  have hreg' : alookup st'.registry id = some entry := by rw [hpres.1]; exact hreg
  exact resolve_singleton_hit hreg' hlife hcache (List.not_mem_nil id)

/-- Witness for C1 at a concrete container: one singleton registration,
first get constructs instance 0, second get with an override returns the
identical instance 0 and the identical state. -/
theorem claim_singleton_identity_witness :
    containerGet 1
      ⟨[(1, ⟨[], .singleton, 11, true, false, false⟩)], [(1, .obj 0)], [], 1, [(0, ⟨11, []⟩)], []⟩
      1 [("text", .lit 5)] =
    .ok (.obj 0,
      ⟨[(1, ⟨[], .singleton, 11, true, false, false⟩)], [(1, .obj 0)], [], 1, [(0, ⟨11, []⟩)], []⟩) :=
  @claim_singleton_identity 1 0
    ⟨[(1, ⟨[], .singleton, 11, true, false, false⟩)], [], [], 0, [], []⟩
    ⟨[(1, ⟨[], .singleton, 11, true, false, false⟩)], [(1, .obj 0)], [], 1, [(0, ⟨11, []⟩)], []⟩
    1 [] [("text", .lit 5)] ⟨[], .singleton, 11, true, false, false⟩ (.obj 0)
    (by rfl) (by rfl) (by rfl)

/-- C4: the cycle check fires before anything else — for any state
(cached instances included) and any trail already containing the requested
identifier, resolution fails with `CircularDependencyError` naming the
repeated identifier and the trail; and concretely, with A = 1 depending on
B = 2 depending back on A, `get(A)` fails with `CircularDependencyError`. -/
theorem claim_cycle_detection :
    (∀ (fuel : Nat) (st : ContainerState) (id : Nat) (ov : List (String × Value))
        (trail : List Nat), id ∈ trail →
      resolve (fuel + 1) st id ov trail = .error (.circularDependency id trail)) ∧
    containerGet 5
      ⟨[(1, ⟨[⟨"b", .iface 2, none⟩], .transient, 11, true, false, false⟩),
        (2, ⟨[⟨"a", .iface 1, none⟩], .transient, 12, true, false, false⟩)],
       [], [], 0, [], []⟩
      1 [] = .error (.circularDependency 1 [2, 1]) := by
  constructor
  · intro fuel st id ov trail hmem
    rw [resolve, if_pos hmem]
  · rfl

/-- Witness for C4: the cycle error fires even though the requested
identifier has a cached singleton instance — the check precedes any cache
lookup. -/
theorem claim_cycle_detection_witness :
    resolve 1 ⟨[], [(7, .obj 0)], [], 1, [], []⟩ 7 [] [7] =
      .error (.circularDependency 7 [7]) :=
  claim_cycle_detection.1 0 ⟨[], [(7, .obj 0)], [], 1, [], []⟩ 7 [] [7] (by decide)

/-- C2: for every identifier registered with Scoped lifetime:
(1) `get(id)` with an empty scope stack fails with `NoActiveScopeError`;
(2) once `get(id)` has succeeded, a repeated `get(id)` — any overrides —
returns the identical instance and leaves the state untouched (same scope);
(3) after entering a nested scope, `get(id)` constructs an instance distinct
from the outer scope's, and exiting the nested scope leaves the outer
scope's cached instance in place. -/
theorem claim_scoped_lifetime :
    (∀ (fuel : Nat) (st : ContainerState) (id : Nat) (ov : List (String × Value))
        (entry : ServiceEntry),
      alookup st.registry id = some entry → entry.lifetime = .scoped →
      st.scopeStack = [] →
      containerGet (fuel + 1) st id ov = .error (.noActiveScope id)) ∧
    (∀ (fuel1 fuel2 : Nat) (st st' : ContainerState) (id : Nat)
        (ov1 ov2 : List (String × Value)) (entry : ServiceEntry) (v : Value),
      alookup st.registry id = some entry → entry.lifetime = .scoped →
      containerGet fuel1 st id ov1 = .ok (v, st') →
      containerGet (fuel2 + 1) st' id ov2 = .ok (v, st')) ∧
    (∀ (fuel1 fuel2 : Nat) (st st1 st2 : ContainerState) (id : Nat)
        (ov1 ov2 : List (String × Value)) (entry : ServiceEntry) (i : Nat) (v2 : Value),
      StateWF st →
      alookup st.registry id = some entry → entry.lifetime = .scoped →
      containerGet fuel1 st id ov1 = .ok (.obj i, st1) →
      containerGet (fuel2 + 1) (enterScope st1) id ov2 = .ok (v2, st2) →
      v2 ≠ .obj i ∧
      ∃ st3 err, scopeExit st2 = some (st3, err) ∧
        ∃ sc rest, st3.scopeStack = sc :: rest ∧ alookup sc.cache id = some (.obj i)) := by
  refine ⟨?_, ?_, ?_⟩
  · intro fuel st id ov entry hreg hlife hss
    show resolve (fuel + 1) st id ov [] = .error (.noActiveScope id)
    rw [resolve, if_neg (List.not_mem_nil id), hreg]
    simp only
    rw [hlife]
    simp only
    rw [hss]
  · intro fuel1 fuel2 st st' id ov1 ov2 entry v hreg hlife h1
    have hpres := resolve_preserves fuel1 h1
    obtain ⟨sc, rest, hss', hc'⟩ := resolve_scoped_caches hreg hlife h1
    have hreg' : alookup st'.registry id = some entry := by rw [hpres.1]; exact hreg
    exact resolve_scoped_hit hreg' hlife hss' hc' (List.not_mem_nil id)
  · intro fuel1 fuel2 st st1 st2 id ov1 ov2 entry i v2 hwf hreg hlife h1 h2
    have hpres1 := resolve_preserves fuel1 h1
    have hi : i < st1.nextId := (resolve_wf fuel1 hwf h1).2
    obtain ⟨sc, rest, hss1, hc1⟩ := resolve_scoped_caches hreg hlife h1
    have hreg1 : alookup (enterScope st1).registry id = some entry := by
      show alookup st1.registry id = some entry
      rw [hpres1.1]; exact hreg
    obtain ⟨j, hv2, hj⟩ :=
      resolve_scoped_fresh hreg1 hlife (rfl : (enterScope st1).scopeStack = ⟨[], []⟩ :: st1.scopeStack)
        (rfl : alookup (Scope.mk [] []).cache id = none) h2
    have hpres2 := resolve_preserves (fuel2 + 1) h2
    constructor
    · rw [hv2]
      intro hcon
      have hji : j = i := by
        have := Value.obj.injEq j i ▸ hcon
        exact this
      have hje : (enterScope st1).nextId = st1.nextId := rfl
      rw [hje] at hj
      omega
    · cases hss2 : st2.scopeStack with
      | nil =>
        exfalso
        have hlen := hpres2.2.2.1
        rw [hss2] at hlen
        simp [enterScope] at hlen
      | cons hd tl =>
        cases hex : scopeExit st2 with
        | none =>
          exfalso
          rw [scopeExit, hss2] at hex
          simp at hex
        | some pr =>
          obtain ⟨st3, err⟩ := pr
          refine ⟨st3, err, rfl, ?_⟩
          rw [scopeExit, hss2] at hex
          simp only [Option.some.injEq, Prod.mk.injEq] at hex
          have hst3 : st3.scopeStack = tl := by
            rw [← hex.1]
          have hdrop := hpres2.2.2.2
          rw [hss2] at hdrop
          simp only [List.drop_one, List.tail_cons] at hdrop
          have htl : tl = st1.scopeStack := by
            rw [hdrop]; rfl
          refine ⟨sc, rest, ?_, hc1⟩
          rw [hst3, htl, hss1]

/-- Witness for C2 at a concrete container (identifier 1 registered Scoped):
no-scope failure, repeated-get identity inside a scope, and nested-scope
distinctness with the outer cache surviving the nested exit. -/
theorem claim_scoped_lifetime_witness :
    (containerGet 1 ⟨[(1, ⟨[], .scoped, 11, true, false, false⟩)], [], [], 0, [], []⟩ 1 [] =
      .error (.noActiveScope 1)) ∧
    (containerGet 1
      ⟨[(1, ⟨[], .scoped, 11, true, false, false⟩)], [], [⟨[(1, .obj 0)], []⟩], 1, [(0, ⟨11, []⟩)], []⟩
      1 [("x", .lit 3)] =
      .ok (.obj 0,
        ⟨[(1, ⟨[], .scoped, 11, true, false, false⟩)], [], [⟨[(1, .obj 0)], []⟩], 1, [(0, ⟨11, []⟩)], []⟩)) ∧
    ((.obj 1 : Value) ≠ .obj 0 ∧
      ∃ st3 err,
        scopeExit
          ⟨[(1, ⟨[], .scoped, 11, true, false, false⟩)], [],
           [⟨[(1, .obj 1)], []⟩, ⟨[(1, .obj 0)], []⟩], 2,
           [(1, ⟨11, []⟩), (0, ⟨11, []⟩)], []⟩ = some (st3, err) ∧
        ∃ sc rest, st3.scopeStack = sc :: rest ∧ alookup sc.cache 1 = some (.obj 0)) := by
  refine ⟨?_, ?_, ?_⟩
  · exact claim_scoped_lifetime.1 0
      ⟨[(1, ⟨[], .scoped, 11, true, false, false⟩)], [], [], 0, [], []⟩ 1 []
      ⟨[], .scoped, 11, true, false, false⟩ (by rfl) (by rfl) (by rfl)
  · exact claim_scoped_lifetime.2.1 1 0
      ⟨[(1, ⟨[], .scoped, 11, true, false, false⟩)], [], [⟨[], []⟩], 0, [], []⟩
      ⟨[(1, ⟨[], .scoped, 11, true, false, false⟩)], [], [⟨[(1, .obj 0)], []⟩], 1, [(0, ⟨11, []⟩)], []⟩
      1 [] [("x", .lit 3)] ⟨[], .scoped, 11, true, false, false⟩ (.obj 0)
      (by rfl) (by rfl) (by rfl)
  · exact claim_scoped_lifetime.2.2 1 0
      ⟨[(1, ⟨[], .scoped, 11, true, false, false⟩)], [], [⟨[], []⟩], 0, [], []⟩
      ⟨[(1, ⟨[], .scoped, 11, true, false, false⟩)], [], [⟨[(1, .obj 0)], []⟩], 1, [(0, ⟨11, []⟩)], []⟩
      ⟨[(1, ⟨[], .scoped, 11, true, false, false⟩)], [],
       [⟨[(1, .obj 1)], []⟩, ⟨[(1, .obj 0)], []⟩], 2,
       [(1, ⟨11, []⟩), (0, ⟨11, []⟩)], []⟩
      1 [] [] ⟨[], .scoped, 11, true, false, false⟩ 0 (.obj 1)
      ⟨fun id v h => by simp [alookup] at h,
       fun sc hsc id v h => by
        simp only [List.mem_singleton] at hsc
        rw [hsc] at h
        simp [alookup] at h⟩
      (by rfl) (by rfl) (by rfl) (by rfl)

/-- C3: parameter assignment precedence during construction, observed
end-to-end through `get` and the recorded constructor arguments:
(1) an override value is used verbatim;
(2) else a parameter whose declared type is registered is assigned the
recursively resolved instance (with empty overrides for the dependency);
(3) else the declared default is used — in particular an override naming no
constructor parameter is silently ignored, not an error;
(4) else resolution fails with `UnresolvableDependencyError` naming the
parameter and the entry;
(5) parameters are processed and recorded in declaration order;
(6) explicitly: with a single defaulted parameter, an override under a
different name is ignored and the default still applies. -/
theorem claim_override_precedence :
    (∀ (fuel : Nat) (st : ContainerState) (id : Nat) (ov : List (String × Value))
        (pn : String) (dt : DeclType) (df : Option Value) (pt : Nat) (w : Value),
      alookup st.registry id = some ⟨[⟨pn, dt, df⟩], .transient, pt, true, false, false⟩ →
      slookup ov pn = some w →
      containerGet (fuel + 1) st id ov =
        .ok (.obj st.nextId,
          { st with
            nextId := st.nextId + 1,
            heap := (st.nextId, ⟨pt, [(pn, w)]⟩) :: st.heap })) ∧
    (∀ (fuel : Nat) (st : ContainerState) (id : Nat) (ov : List (String × Value))
        (pn : String) (t : Nat) (df : Option Value) (pt : Nat)
        (dentry : ServiceEntry) (vd : Value) (std : ContainerState),
      alookup st.registry id = some ⟨[⟨pn, .iface t, df⟩], .transient, pt, true, false, false⟩ →
      slookup ov pn = none →
      alookup st.registry t = some dentry →
      resolve fuel st t [] [id] = .ok (vd, std) →
      containerGet (fuel + 1) st id ov =
        .ok (.obj std.nextId,
          { std with
            nextId := std.nextId + 1,
            heap := (std.nextId, ⟨pt, [(pn, vd)]⟩) :: std.heap })) ∧
    (∀ (fuel : Nat) (st : ContainerState) (id : Nat) (ov : List (String × Value))
        (pn : String) (t : Nat) (d : Value) (pt : Nat),
      alookup st.registry id = some ⟨[⟨pn, .iface t, some d⟩], .transient, pt, true, false, false⟩ →
      slookup ov pn = none →
      alookup st.registry t = none →
      containerGet (fuel + 1) st id ov =
        .ok (.obj st.nextId,
          { st with
            nextId := st.nextId + 1,
            heap := (st.nextId, ⟨pt, [(pn, d)]⟩) :: st.heap })) ∧
    (∀ (fuel : Nat) (st : ContainerState) (id : Nat) (ov : List (String × Value))
        (pn : String) (t : Nat) (pt : Nat),
      alookup st.registry id = some ⟨[⟨pn, .iface t, none⟩], .transient, pt, true, false, false⟩ →
      slookup ov pn = none →
      alookup st.registry t = none →
      containerGet (fuel + 1) st id ov = .error (.unresolvableDependency pn id)) ∧
    (∀ (fuel : Nat) (st : ContainerState) (id : Nat) (ov : List (String × Value))
        (pn qn : String) (dt1 dt2 : DeclType) (df1 df2 : Option Value) (pt : Nat)
        (w1 w2 : Value),
      alookup st.registry id =
        some ⟨[⟨pn, dt1, df1⟩, ⟨qn, dt2, df2⟩], .transient, pt, true, false, false⟩ →
      slookup ov pn = some w1 →
      slookup ov qn = some w2 →
      containerGet (fuel + 1) st id ov =
        .ok (.obj st.nextId,
          { st with
            nextId := st.nextId + 1,
            heap := (st.nextId, ⟨pt, [(pn, w1), (qn, w2)]⟩) :: st.heap })) ∧
    (∀ (fuel : Nat) (st : ContainerState) (id : Nat)
        (pn qn : String) (t : Nat) (d w : Value) (pt : Nat),
      qn ≠ pn →
      alookup st.registry id = some ⟨[⟨pn, .iface t, some d⟩], .transient, pt, true, false, false⟩ →
      alookup st.registry t = none →
      containerGet (fuel + 1) st id [(qn, w)] =
        .ok (.obj st.nextId,
          { st with
            nextId := st.nextId + 1,
            heap := (st.nextId, ⟨pt, [(pn, d)]⟩) :: st.heap })) := by
  refine ⟨?_, ?_, ?_, ?_, ?_, ?_⟩
  · intro fuel st id ov pn dt df pt w hreg hov
    show resolve (fuel + 1) st id ov [] = _
    rw [resolve, if_neg (List.not_mem_nil id), hreg]
    simp [constructService, resolveParamsWith, resolveOneParam, allocate, hov]
  · intro fuel st id ov pn t df pt dentry vd std hreg hov ht hdep
    show resolve (fuel + 1) st id ov [] = _
    rw [resolve, if_neg (List.not_mem_nil id), hreg]
    simp [constructService, resolveParamsWith, resolveOneParam, allocate, hov, ht, hdep]
  · intro fuel st id ov pn t d pt hreg hov ht
    show resolve (fuel + 1) st id ov [] = _
    rw [resolve, if_neg (List.not_mem_nil id), hreg]
    simp [constructService, resolveParamsWith, resolveOneParam, allocate, hov, ht]
  · intro fuel st id ov pn t pt hreg hov ht
    show resolve (fuel + 1) st id ov [] = _
    rw [resolve, if_neg (List.not_mem_nil id), hreg]
    simp [constructService, resolveParamsWith, resolveOneParam, allocate, hov, ht]
  · intro fuel st id ov pn qn dt1 dt2 df1 df2 pt w1 w2 hreg hov1 hov2
    show resolve (fuel + 1) st id ov [] = _
    rw [resolve, if_neg (List.not_mem_nil id), hreg]
    simp [constructService, resolveParamsWith, resolveOneParam, allocate, hov1, hov2]
  · intro fuel st id pn qn t d w pt hqn hreg ht
    show resolve (fuel + 1) st id [(qn, w)] [] = _
    rw [resolve, if_neg (List.not_mem_nil id), hreg]
    simp [constructService, resolveParamsWith, resolveOneParam, allocate, ht, hqn,
      Ne.symm hqn]

/-- Witness for C3: a container with `Baz` (id 1) whose parameter `text`
defaults to `lit 0`, produced type 11, and nothing else registered — an
override is taken verbatim; an unknown override name is ignored and the
default applies; a parameter with no override, no registration and no
default fails naming the parameter and entry. -/
theorem claim_override_precedence_witness :
    (containerGet 1 ⟨[(1, ⟨[⟨"text", .iface 5, some (.lit 0)⟩], .transient, 11, true, false, false⟩)],
        [], [], 0, [], []⟩ 1 [("text", .lit 7)] =
      .ok (.obj 0, ⟨[(1, ⟨[⟨"text", .iface 5, some (.lit 0)⟩], .transient, 11, true, false, false⟩)],
        [], [], 1, [(0, ⟨11, [("text", .lit 7)]⟩)], []⟩)) ∧
    (containerGet 1 ⟨[(1, ⟨[⟨"text", .iface 5, some (.lit 0)⟩], .transient, 11, true, false, false⟩)],
        [], [], 0, [], []⟩ 1 [("junk", .lit 9)] =
      .ok (.obj 0, ⟨[(1, ⟨[⟨"text", .iface 5, some (.lit 0)⟩], .transient, 11, true, false, false⟩)],
        [], [], 1, [(0, ⟨11, [("text", .lit 0)]⟩)], []⟩)) ∧
    (containerGet 1 ⟨[(1, ⟨[⟨"text", .iface 5, none⟩], .transient, 11, true, false, false⟩)],
        [], [], 0, [], []⟩ 1 [] =
      .error (.unresolvableDependency "text" 1)) := by
  refine ⟨?_, ?_, ?_⟩
  · exact claim_override_precedence.1 0
      ⟨[(1, ⟨[⟨"text", .iface 5, some (.lit 0)⟩], .transient, 11, true, false, false⟩)], [], [], 0, [], []⟩
      1 [("text", .lit 7)] "text" (.iface 5) (some (.lit 0)) 11 (.lit 7) (by rfl) (by rfl)
  · exact claim_override_precedence.2.2.2.2.2 0
      ⟨[(1, ⟨[⟨"text", .iface 5, some (.lit 0)⟩], .transient, 11, true, false, false⟩)], [], [], 0, [], []⟩
      1 "text" "junk" 5 (.lit 0) (.lit 9) 11 (by decide) (by rfl) (by rfl)
  · exact claim_override_precedence.2.2.2.1 0
      ⟨[(1, ⟨[⟨"text", .iface 5, none⟩], .transient, 11, true, false, false⟩)], [], [], 0, [], []⟩
      1 [] "text" 5 11 (by rfl) (by rfl) (by rfl)

/-- C5: whatever the lifetime, once the constructor/factory has been invoked
(parameter resolution succeeded) a product that does not conform to the
requested identifier's contract makes resolution fail with
`ServiceTypeError` naming the produced type and the expected contract; the
failure means no instance is returned and — resolution being the sole
writer — no cache update survives. -/
theorem claim_type_conformance :
    (∀ (fuel : Nat) (st : ContainerState) (id : Nat) (ov : List (String × Value))
        (entry : ServiceEntry) (args : List (String × Value)) (st1 : ContainerState),
      alookup st.registry id = some entry → entry.lifetime = .transient →
      entry.conforms = false →
      resolveParamsWith (fun s t => resolve fuel s t [] [id]) ov id st entry.params =
        .ok (args, st1) →
      containerGet (fuel + 1) st id ov = .error (.typeMismatch entry.producedType id)) ∧
    (∀ (fuel : Nat) (st : ContainerState) (id : Nat) (ov : List (String × Value))
        (entry : ServiceEntry) (args : List (String × Value)) (st1 : ContainerState),
      alookup st.registry id = some entry → entry.lifetime = .singleton →
      entry.conforms = false →
      alookup st.singletonCache id = none →
      resolveParamsWith (fun s t => resolve fuel s t [] [id]) ov id st entry.params =
        .ok (args, st1) →
      containerGet (fuel + 1) st id ov = .error (.typeMismatch entry.producedType id)) ∧
    (∀ (fuel : Nat) (st : ContainerState) (id : Nat) (ov : List (String × Value))
        (entry : ServiceEntry) (args : List (String × Value)) (st1 : ContainerState)
        (sc : Scope) (rest : List Scope),
      alookup st.registry id = some entry → entry.lifetime = .scoped →
      entry.conforms = false →
      st.scopeStack = sc :: rest →
      alookup sc.cache id = none →
      resolveParamsWith (fun s t => resolve fuel s t [] [id]) ov id st entry.params =
        .ok (args, st1) →
      containerGet (fuel + 1) st id ov = .error (.typeMismatch entry.producedType id)) := by
  refine ⟨?_, ?_, ?_⟩
  · intro fuel st id ov entry args st1 hreg hlife hconf hp
    show resolve (fuel + 1) st id ov [] = _
    rw [resolve, if_neg (List.not_mem_nil id), hreg]
    simp only
    rw [hlife]
    simp [constructService, hp, allocate, hconf]
  · intro fuel st id ov entry args st1 hreg hlife hconf hc hp
    show resolve (fuel + 1) st id ov [] = _
    rw [resolve, if_neg (List.not_mem_nil id), hreg]
    simp only
    rw [hlife]
    simp only
    rw [hc]
    simp [constructService, hp, allocate, hconf]
  · intro fuel st id ov entry args st1 sc rest hreg hlife hconf hss hc hp
    show resolve (fuel + 1) st id ov [] = _
    rw [resolve, if_neg (List.not_mem_nil id), hreg]
    simp only
    rw [hlife]
    simp only
    rw [hss]
    simp only
    rw [hc]
    simp [constructService, hp, allocate, hconf]

/-- Witness for C5: a factory registered for identifier 1 whose product (of
type 99) does not conform — `get` fails with the type error, as in the
notebook's `incorrect_create_foo` example. -/
theorem claim_type_conformance_witness :
    containerGet 1 ⟨[(1, ⟨[], .transient, 99, false, false, false⟩)], [], [], 0, [], []⟩ 1 [] =
      .error (.typeMismatch 99 1) :=
  claim_type_conformance.1 0
    ⟨[(1, ⟨[], .transient, 99, false, false, false⟩)], [], [], 0, [], []⟩
    1 [] ⟨[], .transient, 99, false, false, false⟩ []
    ⟨[(1, ⟨[], .transient, 99, false, false, false⟩)], [], [], 0, [], []⟩
    (by rfl) (by rfl) (by rfl) (by rfl)

/-- C6: scope exit disposes every tracked disposable in strict reverse
creation order — the disposal log extends by exactly the reverse of the
scope's creation-ordered disposables — and then pops the scope from the
stack. (The Python `with`-statement guarantees `__exit__` runs on every
exit path, raising bodies included; `scopeExit` is that exit handler.) -/
theorem claim_disposal_order {st : ContainerState} {sc : Scope} {rest : List Scope}
    (hss : st.scopeStack = sc :: rest) :
    ∃ err, scopeExit st = some
      ({ st with
         scopeStack := rest,
         disposeLog := st.disposeLog ++ (sc.disposables.map Prod.fst).reverse }, err) := by
  refine ⟨if (disposeAll sc.disposables.reverse).2.isEmpty then none
          else some (.disposalFailure (disposeAll sc.disposables.reverse).2), ?_⟩
  rw [scopeExit, hss]
  simp [disposeAll_fst]

/-- Witness for C6: a scope that created instances 0 then 1 then 2 disposes
2, 1, 0 in that order and is popped. -/
theorem claim_disposal_order_witness :
    ∃ err, scopeExit
      ⟨[], [], [⟨[], [(0, false), (1, false), (2, false)]⟩, ⟨[], []⟩], 3, [], []⟩ =
      some (⟨[], [], [⟨[], []⟩], 3, [], [2, 1, 0]⟩, err) :=
  @claim_disposal_order
    ⟨[], [], [⟨[], [(0, false), (1, false), (2, false)]⟩, ⟨[], []⟩], 3, [], []⟩
    ⟨[], [(0, false), (1, false), (2, false)]⟩ [⟨[], []⟩] (by rfl)

/-- C7: if a tracked instance's disposal raises during scope exit, every
tracked instance is still disposed (the log still extends by the full
reverse creation order), the scope is still popped, and an aggregate
`DisposalError` collecting the failing instance is reported to the
caller. -/
theorem claim_disposal_fault_isolation {st : ContainerState} {sc : Scope} {rest : List Scope}
    {iid : Nat} (hss : st.scopeStack = sc :: rest) (hmem : (iid, true) ∈ sc.disposables) :
    ∃ st' fails, scopeExit st = some (st', some (.disposalFailure fails)) ∧
      iid ∈ fails ∧ st'.scopeStack = rest ∧
      st'.disposeLog = st.disposeLog ++ (sc.disposables.map Prod.fst).reverse := by
  have hmemr : (iid, true) ∈ sc.disposables.reverse := List.mem_reverse.mpr hmem
  have hfail := disposeAll_fails_mem hmemr
  have hne : (disposeAll sc.disposables.reverse).2.isEmpty = false := by
    cases hres : (disposeAll sc.disposables.reverse).2 with
    | nil => rw [hres] at hfail; exact absurd hfail (List.not_mem_nil _)
    | cons a l => rfl
  refine ⟨{ st with
            scopeStack := rest,
            disposeLog := st.disposeLog ++ (disposeAll sc.disposables.reverse).1 },
          (disposeAll sc.disposables.reverse).2, ?_, hfail, rfl, ?_⟩
  · rw [scopeExit, hss]
    simp [hne]
  · simp [disposeAll_fst]

/-- Witness for C7: instance 1 (created second) raises on disposal; the log
still shows 2, 1, 0 — instance 0, disposed after the failing 1, is still
disposed — the scope pops, and the aggregate failure names instance 1. -/
theorem claim_disposal_fault_isolation_witness :
    ∃ st' fails, scopeExit
        ⟨[], [], [⟨[], [(0, false), (1, true), (2, false)]⟩], 3, [], []⟩ =
        some (st', some (.disposalFailure fails)) ∧
      1 ∈ fails ∧ st'.scopeStack = [] ∧
      st'.disposeLog = [] ++ ([(0, false), (1, true), (2, false)].map Prod.fst).reverse :=
  @claim_disposal_fault_isolation
    ⟨[], [], [⟨[], [(0, false), (1, true), (2, false)]⟩], 3, [], []⟩
    ⟨[], [(0, false), (1, true), (2, false)]⟩ [] 1 (by rfl) (by decide)

/-- C8: registry `set` never fails — it is a total operation; storing an
entry for an identifier that already has a registration overwrites it
(last write wins) with no prior unregister, and leaves every other
registration untouched. -/
theorem claim_registry_overwrite {st : ContainerState} {id : Nat} {e1 e2 : ServiceEntry}
    (hreg : alookup st.registry id = some e1) :
    alookup (registerService st id e2).registry id = some e2 ∧
    ∀ k, k ≠ id → alookup (registerService st id e2).registry k = alookup st.registry k := by
  constructor
  · show alookup (setEntry st.registry id e2) id = some e2
    rw [setEntry]
    simp
  · intro k hk
    show alookup (setEntry st.registry id e2) k = _
    rw [setEntry, alookup_cons, if_neg hk]
    exact alookup_removeKey_ne hk

/-- Witness for C8: re-registering identifier 1 over an existing entry
succeeds, the new entry wins, and identifier 2's registration is
untouched. -/
theorem claim_registry_overwrite_witness :
    alookup (registerService
      ⟨[(1, ⟨[], .transient, 11, true, false, false⟩), (2, ⟨[], .transient, 12, true, false, false⟩)],
       [], [], 0, [], []⟩ 1 ⟨[], .singleton, 13, true, false, false⟩).registry 1 =
      some ⟨[], .singleton, 13, true, false, false⟩ ∧
    ∀ k, k ≠ 1 → alookup (registerService
      ⟨[(1, ⟨[], .transient, 11, true, false, false⟩), (2, ⟨[], .transient, 12, true, false, false⟩)],
       [], [], 0, [], []⟩ 1 ⟨[], .singleton, 13, true, false, false⟩).registry k =
      alookup [(1, (⟨[], .transient, 11, true, false, false⟩ : ServiceEntry)),
               (2, ⟨[], .transient, 12, true, false, false⟩)] k :=
  @claim_registry_overwrite
    ⟨[(1, ⟨[], .transient, 11, true, false, false⟩), (2, ⟨[], .transient, 12, true, false, false⟩)],
     [], [], 0, [], []⟩ 1
    ⟨[], .transient, 11, true, false, false⟩ ⟨[], .singleton, 13, true, false, false⟩ (by rfl)

/-- C9: factory injection:
(1) a dependency declared `Factory[t]` is injected as a factory proxy bound
to `t`, not an eagerly resolved instance;
(2) `get_factory` yields the proxy bound to the identifier and calling a
proxy re-invokes resolution for it with the supplied overrides;
(3) with `t` registered Transient, two proxy invocations with different
overrides succeed with the scope stack empty and produce two distinct
instances, each recording its own override. -/
theorem claim_factory_injection :
    (∀ (fuel : Nat) (st : ContainerState) (id : Nat) (ov : List (String × Value))
        (pn : String) (t : Nat) (df : Option Value) (pt : Nat),
      alookup st.registry id = some ⟨[⟨pn, .factoryOf t, df⟩], .transient, pt, true, false, false⟩ →
      slookup ov pn = none →
      containerGet (fuel + 1) st id ov =
        .ok (.obj st.nextId,
          { st with
            nextId := st.nextId + 1,
            heap := (st.nextId, ⟨pt, [(pn, .factoryProxy t)]⟩) :: st.heap })) ∧
    (∀ (fuel : Nat) (st : ContainerState) (t : Nat) (ov : List (String × Value)),
      getFactory t = .factoryProxy t ∧
      callFactoryProxy fuel st t ov = resolve fuel st t ov []) ∧
    (∀ (fuel : Nat) (st : ContainerState) (t : Nat) (pn : String) (dt : DeclType)
        (df : Option Value) (pt : Nat) (w1 w2 : Value),
      st.scopeStack = [] →
      alookup st.registry t = some ⟨[⟨pn, dt, df⟩], .transient, pt, true, false, false⟩ →
      ∃ stA stB,
        callFactoryProxy (fuel + 1) st t [(pn, w1)] = .ok (.obj st.nextId, stA) ∧
        callFactoryProxy (fuel + 1) stA t [(pn, w2)] = .ok (.obj (st.nextId + 1), stB) ∧
        (.obj st.nextId : Value) ≠ .obj (st.nextId + 1) ∧
        alookup stB.heap st.nextId = some ⟨pt, [(pn, w1)]⟩ ∧
        alookup stB.heap (st.nextId + 1) = some ⟨pt, [(pn, w2)]⟩ ∧
        stB.scopeStack = []) := by
  refine ⟨?_, ?_, ?_⟩
  · intro fuel st id ov pn t df pt hreg hov
    show resolve (fuel + 1) st id ov [] = _
    rw [resolve, if_neg (List.not_mem_nil id), hreg]
    simp [constructService, resolveParamsWith, resolveOneParam, allocate, hov]
  · intro fuel st t ov
    exact ⟨rfl, rfl⟩
  · intro fuel st t pn dt df pt w1 w2 hss hreg
    refine ⟨{ st with
              nextId := st.nextId + 1,
              heap := (st.nextId, ⟨pt, [(pn, w1)]⟩) :: st.heap },
            { st with
              nextId := st.nextId + 2,
              heap := (st.nextId + 1, ⟨pt, [(pn, w2)]⟩) ::
                      (st.nextId, ⟨pt, [(pn, w1)]⟩) :: st.heap }, ?_, ?_, ?_, ?_, ?_, ?_⟩
    · show resolve (fuel + 1) st t [(pn, w1)] [] = _
      rw [resolve, if_neg (List.not_mem_nil t), hreg]
      simp [constructService, resolveParamsWith, resolveOneParam, allocate]
    · show resolve (fuel + 1) _ t [(pn, w2)] [] = _
      rw [resolve, if_neg (List.not_mem_nil t)]
      have hreg2 : alookup ({ st with
          nextId := st.nextId + 1,
          heap := (st.nextId, ⟨pt, [(pn, w1)]⟩) :: st.heap } : ContainerState).registry t =
          some ⟨[⟨pn, dt, df⟩], .transient, pt, true, false, false⟩ := hreg
      rw [hreg2]
      simp [constructService, resolveParamsWith, resolveOneParam, allocate]
    · simp
    · rw [alookup_cons, if_neg (by omega), alookup_cons, if_pos rfl]
    · rw [alookup_cons, if_pos rfl]
    · exact hss

/-- Witness for C9 at a concrete container: identifier 3 registered as a
`Factory[5]`-consuming transient, identifier 5 a transient with one
defaulted parameter; injection yields the bound proxy, and two proxy calls
with different overrides — no scope anywhere — yield distinct instances 0
and 1 with their own recorded arguments. -/
theorem claim_factory_injection_witness :
    (containerGet 1
      ⟨[(3, ⟨[⟨"ff", .factoryOf 5, none⟩], .transient, 13, true, false, false⟩)],
       [], [], 0, [], []⟩ 3 [] =
      .ok (.obj 0,
        ⟨[(3, ⟨[⟨"ff", .factoryOf 5, none⟩], .transient, 13, true, false, false⟩)],
         [], [], 1, [(0, ⟨13, [("ff", .factoryProxy 5)]⟩)], []⟩)) ∧
    (∃ stA stB,
      callFactoryProxy 1
        ⟨[(5, ⟨[⟨"text", .iface 7, some (.lit 0)⟩], .transient, 15, true, false, false⟩)],
         [], [], 0, [], []⟩ 5 [("text", .lit 1)] = .ok (.obj 0, stA) ∧
      callFactoryProxy 1 stA 5 [("text", .lit 2)] = .ok (.obj 1, stB) ∧
      (.obj 0 : Value) ≠ .obj 1 ∧
      alookup stB.heap 0 = some ⟨15, [("text", .lit 1)]⟩ ∧
      alookup stB.heap 1 = some ⟨15, [("text", .lit 2)]⟩ ∧
      stB.scopeStack = []) := by
  constructor
  · exact claim_factory_injection.1 0
      ⟨[(3, ⟨[⟨"ff", .factoryOf 5, none⟩], .transient, 13, true, false, false⟩)], [], [], 0, [], []⟩
      3 [] "ff" 5 none 13 (by rfl) (by rfl)
  · exact claim_factory_injection.2.2 0
      ⟨[(5, ⟨[⟨"text", .iface 7, some (.lit 0)⟩], .transient, 15, true, false, false⟩)],
       [], [], 0, [], []⟩
      5 "text" (.iface 7) (some (.lit 0)) 15 (.lit 1) (.lit 2) (by rfl) (by rfl)

/-- C10: every error kind the container raises at its public surface maps to
an exception class that — per the stub's declared hierarchy — is a subclass
of the single common base `ServiceException`, so one handler catches them
all; and the six specific kinds remain distinct classes, so callers can
still distinguish them. -/
theorem claim_single_error_base :
    (∀ e : ServiceError, pyIsSubclass (errorClass e) .serviceException = true) ∧
    List.Pairwise (fun a b => a ≠ b)
      [PyClass.serviceCircularDependencyError, PyClass.serviceResolutionError,
       PyClass.serviceRegistrationError, PyClass.serviceTypeError,
       PyClass.serviceDisposedError, PyClass.serviceScopeError] := by
  constructor
  · intro e
    cases e <;> rfl
  · decide

end Pyjudo
